import Mathlib

/-!
Verification of the clientx HTTP client-building library.

Shallow embedding of the request pipeline: the backoff retry mechanism
(retry.go), the retry loop of executeRequest (client.go), the adaptive
rate limiter (the limiter portion of encoding.go), the response body
normalizer (responseReader / drainBody), URL building, and the top-level
do pipeline.  Durations and int64 counters are modelled as Int; wall-clock
times as Nat (0 standing for the Go zero time.Time); byte streams as
List Nat.  Randomness (the jitter draw of ExponentalBackoff) is passed in
as an explicit argument ranging over the interval the source draws from.
-/

namespace Clientx

/-! ## retry.go -/

/-- The stop sentinel `stopBackoff time.Duration = -1` from retry.go. -/
def stopBackoff : Int := -1

/-- The `backoff` struct of retry.go.  `f` is the RetryFunc
`func(n int, min, max time.Duration) time.Duration`. -/
structure Backoff where
  minWaitTime : Int
  maxWaitTime : Int
  maxAttempts : Int
  attempts : Int
  f : Int → Int → Int → Int

/-- `backoff.Next` from retry.go: if `attempts >= maxAttempts` return the
stop sentinel without incrementing; otherwise increment the counter and
call the retry function on the incremented attempt number. -/
def Backoff.Next (b : Backoff) : Int × Backoff :=
  if b.maxAttempts ≤ b.attempts then (stopBackoff, b)
  else (b.f (b.attempts + 1) b.minWaitTime b.maxWaitTime,
        { b with attempts := b.attempts + 1 })

/-- `backoff.Reset` from retry.go: swap the counter to 0, returning the
previous value. -/
def Backoff.Reset (b : Backoff) : Int × Backoff :=
  (b.attempts, { b with attempts := 0 })

/-- `backoff.Attempt` from retry.go. -/
def Backoff.Attempt (b : Backoff) : Int :=
  b.attempts

/-- `ExponentalBackoff` from retry.go, with the random jitter draw made an
explicit argument: the source computes
`delay := 2^attemptNum * min; jitter := rand.Float64() * min * attemptNum;
delay += jitter; if delay > max { delay = max }`.
The float arithmetic is modelled exactly over Int. -/
def ExponentalBackoff (attemptNum : Nat) (min max : Int) (jitter : Int) : Int :=
  let delay := 2 ^ attemptNum * min + jitter
  if max < delay then max else delay

/-! ## client.go: executeRequest -/

/-- The disjunction of the configured retry conditions, as evaluated by the
`for _, cond := range c.api.options.Retry.Conditions` loop of
executeRequest: true iff some condition matches the outcome. -/
def matchedAnyCond {α : Type} (conds : List (α → Bool)) (o : α) : Bool :=
  conds.any (fun c => c o)

/-- Observable result of one run of the retry loop: the final outcome, the
backoff state after the loop, the number of network exchanges performed,
the values of the attempt counter at entry of each loop iteration, and
whether the loop terminated through the stopBackoff branch. -/
structure LoopResult (α : Type) where
  out : α
  backoff : Backoff
  exchanges : Nat
  trace : List Int
  stopped : Bool

/-- The `for {}` retry loop of executeRequest (client.go lines 134-158):
perform an exchange (`transport k` is the outcome of the k-th exchange,
counting from 0); if some condition matches, ask the backoff for the next
duration; on stopBackoff reset the counter and return the last outcome;
otherwise sleep (time only, not modelled) and loop; if no condition
matches, return the outcome immediately. -/
def executeLoop {α : Type} (conds : List (α → Bool)) (transport : Nat → α)
    (b : Backoff) (k : Nat) : LoopResult α :=
  let out := transport k
  if matchedAnyCond conds out then
    if h : (b.Next).1 = stopBackoff then
      ⟨out, ((b.Next).2.Reset).2, k + 1, [b.attempts], true⟩
    else
      let r := executeLoop conds transport (b.Next).2 (k + 1)
      ⟨r.out, r.backoff, r.exchanges, b.attempts :: r.trace, r.stopped⟩
  else
    ⟨out, b, k + 1, [b.attempts], false⟩
termination_by (b.maxAttempts - b.attempts).toNat
decreasing_by
  rcases le_or_lt b.maxAttempts b.attempts with hge | hlt
  · simp [Backoff.Next, if_pos hge] at h
  · simp only [Backoff.Next, if_neg (not_le.mpr hlt)]
    omega

/-- Result of executeRequest: as LoopResult but the backoff is optional
(absent when no retry policy is configured). -/
structure ExecResult (α : Type) where
  out : α
  retry : Option Backoff
  exchanges : Nat
  trace : List Int
  stopped : Bool

/-- `executeRequest` (client.go lines 98-159): with no retry policy
configured, a single exchange; otherwise the retry loop starting at the
current backoff state. -/
def executeRequest {α : Type} (conds : List (α → Bool)) (transport : Nat → α)
    (retry : Option Backoff) : ExecResult α :=
  match retry with
  | none => ⟨transport 0, none, 1, [], false⟩
  | some b =>
    let r := executeLoop conds transport b 0
    ⟨r.out, some r.backoff, r.exchanges, r.trace, r.stopped⟩

/-! sanity lemmas for the loop -/

theorem executeLoop_nonmatch {α : Type} (conds : List (α → Bool))
    (transport : Nat → α) (b : Backoff) (k : Nat)
    (hm : matchedAnyCond conds (transport k) = false) :
    executeLoop conds transport b k = ⟨transport k, b, k + 1, [b.attempts], false⟩ := by
  unfold executeLoop
  simp [hm]

theorem executeLoop_trace_head {α : Type} (conds : List (α → Bool))
    (transport : Nat → α) (b : Backoff) (k : Nat) :
    (executeLoop conds transport b k).trace.head? = some b.attempts := by
  unfold executeLoop
  by_cases hm : matchedAnyCond conds (transport k)
  · simp only [hm, if_true]
    by_cases h : (b.Next).1 = stopBackoff
    · simp [h]
    · simp [h]
  · simp [hm]

theorem next_ne_stop_lt {b : Backoff} (h : (b.Next).1 ≠ stopBackoff) :
    b.attempts < b.maxAttempts := by
  by_contra hge
  push_neg at hge
  exact h (by simp [Backoff.Next, if_pos hge])

theorem next_snd_of_lt {b : Backoff} (h : b.attempts < b.maxAttempts) :
    (b.Next).2 = { b with attempts := b.attempts + 1 } := by
  simp [Backoff.Next, if_neg (not_le.mpr h)]

theorem executeLoop_always {α : Type} (conds : List (α → Bool)) (transport : Nat → α)
    (hc : ∀ k, matchedAnyCond conds (transport k) = true) :
    ∀ (m : Nat) (b : Backoff) (k : Nat),
      (∀ n mn mx, b.f n mn mx ≠ stopBackoff) →
      b.attempts ≤ b.maxAttempts →
      (b.maxAttempts - b.attempts).toNat = m →
      (executeLoop conds transport b k).out = transport (k + m) ∧
      (executeLoop conds transport b k).backoff = { b with attempts := 0 } ∧
      (executeLoop conds transport b k).exchanges = k + m + 1 ∧
      (executeLoop conds transport b k).stopped = true := by
  intro m
  induction m with
  | zero =>
    intro b k hf hle hm
    have heq : b.maxAttempts ≤ b.attempts := by omega
    have hnext : b.Next = (stopBackoff, b) := by
      simp [Backoff.Next, if_pos heq]
    unfold executeLoop
    simp [hc k, hnext, Backoff.Reset]
  | succ m ih =>
    intro b k hf hle hm
    have hlt : b.attempts < b.maxAttempts := by omega
    have hnext : b.Next =
        (b.f (b.attempts + 1) b.minWaitTime b.maxWaitTime,
         { b with attempts := b.attempts + 1 }) := by
      simp [Backoff.Next, if_neg (not_le.mpr hlt)]
    have hfns : b.f (b.attempts + 1) b.minWaitTime b.maxWaitTime ≠ stopBackoff := hf _ _ _
    have ihr := ih { b with attempts := b.attempts + 1 } (k + 1)
      (fun n mn mx => hf n mn mx) (by simp; omega) (by simp; omega)
    have hadd : k + 1 + m = k + (m + 1) := by omega
    rw [hadd] at ihr
    unfold executeLoop
    simp only [hc k, if_true, hnext, dif_neg hfns]
    exact ⟨ihr.1, ihr.2.1, ihr.2.2.1, ihr.2.2.2⟩

theorem executeLoop_trace_chain {α : Type} (conds : List (α → Bool)) (transport : Nat → α) :
    ∀ (m : Nat) (b : Backoff) (k : Nat),
      (b.maxAttempts - b.attempts).toNat = m →
      List.Chain' (· ≤ ·) (executeLoop conds transport b k).trace := by
  intro m
  induction m with
  | zero =>
    intro b k hm
    unfold executeLoop
    by_cases hmt : matchedAnyCond conds (transport k)
    · by_cases h : (b.Next).1 = stopBackoff
      · simp [hmt, h]
      · exact absurd hm (by have := next_ne_stop_lt h; omega)
    · simp [hmt]
  | succ m ih =>
    intro b k hm
    by_cases hmt : matchedAnyCond conds (transport k)
    · by_cases h : (b.Next).1 = stopBackoff
      · unfold executeLoop
        simp [hmt, h]
      · have hlt := next_ne_stop_lt h
        have hnext2 := next_snd_of_lt hlt
        have hchain := ih (b.Next).2 (k + 1) (by rw [hnext2]; simp; omega)
        have hhead := executeLoop_trace_head conds transport (b.Next).2 (k + 1)
        unfold executeLoop
        simp only [hmt, if_true, dif_neg h]
        rw [List.chain'_cons']
        refine ⟨?_, hchain⟩
        intro y hy
        rw [hhead] at hy
        rw [hnext2] at hy
        simp at hy
        omega
    · unfold executeLoop
      simp [hmt]

theorem executeLoop_stopped_attempts {α : Type} (conds : List (α → Bool))
    (transport : Nat → α) :
    ∀ (m : Nat) (b : Backoff) (k : Nat),
      (b.maxAttempts - b.attempts).toNat = m →
      (executeLoop conds transport b k).stopped = true →
      (executeLoop conds transport b k).backoff.attempts = 0 := by
  intro m
  induction m with
  | zero =>
    intro b k hm
    unfold executeLoop
    by_cases hmt : matchedAnyCond conds (transport k)
    · by_cases h : (b.Next).1 = stopBackoff
      · simp [hmt, h, Backoff.Reset]
      · exact absurd hm (by have := next_ne_stop_lt h; omega)
    · simp [hmt]
  | succ m ih =>
    intro b k hm
    by_cases hmt : matchedAnyCond conds (transport k)
    · by_cases h : (b.Next).1 = stopBackoff
      · unfold executeLoop
        simp [hmt, h, Backoff.Reset]
      · have hlt := next_ne_stop_lt h
        have hnext2 := next_snd_of_lt hlt
        have ihr := ih (b.Next).2 (k + 1) (by rw [hnext2]; simp; omega)
        unfold executeLoop
        simp only [hmt, if_true, dif_neg h]
        exact ihr
    · unfold executeLoop
      simp [hmt]

/-! ## encoding.go: adaptiveBucketLimiter

Wall-clock instants are Nat, with 0 standing for the Go zero `time.Time`
(`time.Time{}.IsZero()`); real acquires happen at positive instants.  The
wrapped `rate.Limiter` is modelled by its observable configuration (limit
and burst); the token-waiting part of `l.r.Wait(ctx)` is outside this
model, claim C2 being about the reconfiguration phase that precedes it. -/

/-- The limit/burst configuration held by the wrapped `rate.Limiter`. -/
structure RateConfig where
  limit : Int
  burst : Int

/-- The mutable state of `adaptiveBucketLimiter`: pending activation time,
queued reconfiguration callbacks, and the wrapped limiter configuration. -/
structure LimiterState where
  nextResetAt : Nat
  nextResetEvents : List (RateConfig → RateConfig)
  config : RateConfig

/-- `adaptiveBucketLimiter.tryReset`:
`l.nextResetAt.Equal(now) || l.nextResetAt.After(now)`. -/
def tryReset (l : LimiterState) (now : Nat) : Bool :=
  l.nextResetAt == now || now < l.nextResetAt

/-- The reconfiguration phase of `adaptiveBucketLimiter.Wait` (the part
before the blocking `l.r.Wait(ctx)` call): if tryReset succeeds, apply all
queued callbacks in order, clear the pending activation time to the zero
time, and truncate the event queue. -/
def LimiterState.Wait (l : LimiterState) (now : Nat) : LimiterState :=
  if tryReset l now then
    { l with
      config := l.nextResetEvents.foldl (fun c f => f c) l.config,
      nextResetAt := 0,
      nextResetEvents := [] }
  else l

/-- `validateResetAt`: a zero activation time defaults to the current
wall-clock instant. -/
def validateResetAt (now atTime : Nat) : Nat :=
  if atTime == 0 then now else atTime

/-- `adaptiveBucketLimiter.insertEvent`: overwrite the pending activation
time and append the callback to the queue. -/
def insertEvent (l : LimiterState) (atTime : Nat) (f : RateConfig → RateConfig) :
    LimiterState :=
  { l with nextResetAt := atTime, nextResetEvents := l.nextResetEvents ++ [f] }

/-- `adaptiveBucketLimiter.SetLimitAt`. -/
def SetLimitAt (l : LimiterState) (now atTime : Nat) (limit : Int) : LimiterState :=
  insertEvent l (validateResetAt now atTime) (fun c => { c with limit := limit })

/-- `adaptiveBucketLimiter.SetBurstAt`. -/
def SetBurstAt (l : LimiterState) (now atTime : Nat) (burst : Int) : LimiterState :=
  insertEvent l (validateResetAt now atTime) (fun c => { c with burst := burst })

/-! ## response body normalizer (responseReader / drainBody / decode) -/

/-- An HTTP response body: Go `nil`, the `http.NoBody` sentinel, or a
stream of bytes. -/
inductive Body where
  | nil
  | noBody
  | bytes (data : List Nat)
deriving DecidableEq

/-- The byte content a reader over the body would deliver. -/
def Body.bytesOf : Body → List Nat
  | .bytes d => d
  | _ => []

/-- `io.ReadAll` over the body followed by the state the underlying buffer
is left in: reading a `bytes.Buffer` behind an `io.NopCloser` drains it,
so a second ReadAll yields nothing; nil and NoBody deliver nothing. -/
def Body.readAll : Body → List Nat × Body
  | .bytes d => (d, .bytes [])
  | .noBody => ([], .noBody)
  | .nil => ([], .nil)

/-- `drainBody` (from httputil/dump.go, copied into response.go): a nil
body or the NoBody sentinel is passed through untouched as both readers;
otherwise the body is drained into a buffer and two readers over the same
bytes are returned.  The in-memory buffer reads cannot fail, so the error
branches of the source never fire here. -/
def drainBody : Body → Except String (Body × Body)
  | .nil => .ok (.noBody, .noBody)
  | .noBody => .ok (.noBody, .noBody)
  | .bytes d => .ok (.bytes d, .bytes d)

/-- A response as seen by responseReader: the Content-Encoding header
value ("" when absent) and the body. -/
structure Response where
  contentEncoding : String
  body : Body
deriving DecidableEq

/-- The decode stream produced by responseReader: a flate reader, a gzip
reader, or the bare (identity) reader over the second drained body. -/
inductive Reader where
  | flate (src : Body)
  | gzip (src : Body)
  | plain (src : Body)
deriving DecidableEq

/-- Whether the decode stream decompresses its source. -/
def isDecompressing : Reader → Bool
  | .flate _ => true
  | .gzip _ => true
  | .plain _ => false

/-- Models `compress/gzip.NewReader`: the constructor eagerly reads and
validates the 10-byte gzip header (magic bytes 31, 139, compression
method 8), failing with EOF when the source is too short. -/
def gzipNewReader (src : Body) : Except String Reader :=
  if (src.bytesOf).length < 10 then .error "gzip: EOF"
  else if (src.bytesOf).take 3 ≠ [31, 139, 8] then .error "gzip: invalid header"
  else .ok (.gzip src)

/-- `responseReader` (the drainBody version of response.go): duplicate the
body into r1 (the new externally visible `resp.Body`) and r2 (fed to the
decompressor chosen by the Content-Encoding switch; `flate.NewReader` is
lazy and always succeeds, `gzip.NewReader` reads the header eagerly). -/
def responseReader (resp : Response) : Except String (Reader × Response) :=
  match drainBody resp.body with
  | .error e => .error e
  | .ok (r1, r2) =>
    if resp.contentEncoding = "deflate" then
      .ok (.flate r2, { resp with body := r1 })
    else if resp.contentEncoding = "gzip" then
      match gzipNewReader r2 with
      | .error e => .error e
      | .ok rd => .ok (rd, { resp with body := r1 })
    else
      .ok (.plain r2, { resp with body := r1 })

/-! ## client.go: buildRequestURL and do -/

/-- The parsed form of the configured base URL (net/url.URL restricted to
the components buildRequestURL touches). -/
structure URL where
  scheme : String
  host : String
  path : String
deriving DecidableEq

/-- `client.buildRequestURL`: parse the base URL and assign
`u.Path = resource`, overwriting whatever path the base URL carried. -/
def buildRequestURL (base : URL) (resource : String) : URL :=
  { base with path := resource }

/-- A network exchange outcome as fed to the retry conditions: the
`(*http.Response, error)` pair. -/
structure Outcome (ρ : Type) where
  resp : Option ρ
  err : Option String

/-- The observable result of one `client.do` call. -/
structure DoResult (ρ β : Type) where
  resp : Option ρ
  decoded : Option β
  err : Option String
  exchanges : Nat
  requestBuilt : Bool

/-- `client.do` (client.go lines 23-65) through the stages claim-relevant
here: the blocking `limiter.Wait` (its error, if any, is `waitErr`), then
`buildRequest` (its result abstracted as `buildResult`), then
executeRequest; the post-exchange normalization and typed decoding,
modelled separately by `responseReader`, are abstracted into `decodeFn`.
`exchanges` counts transport invocations and `requestBuilt` records
whether buildRequest was reached. -/
def clientDo {ρ β : Type} (waitErr : Option String) (buildResult : Except String Unit)
    (conds : List (Outcome ρ → Bool)) (transport : Nat → Outcome ρ)
    (retry : Option Backoff) (decode : Bool) (decodeFn : Outcome ρ → Option β) :
    DoResult ρ β :=
  match waitErr with
  | some e => ⟨none, none, some e, 0, false⟩
  | none =>
    match buildResult with
    | .error e => ⟨none, none, some e, 0, true⟩
    | .ok _ =>
      let r := executeRequest conds transport retry
      match r.out.err with
      | some e => ⟨none, none, some e, r.exchanges, true⟩
      | none =>
        ⟨r.out.resp, if decode then decodeFn r.out else none, none, r.exchanges, true⟩

/-- The pair of readers drainBody hands back for a given body. -/
def drained : Body → Body
  | .bytes d => .bytes d
  | _ => .noBody

theorem drainBody_eq (b : Body) : drainBody b = .ok (drained b, drained b) := by
  cases b <;> rfl

theorem responseReader_eq (resp : Response) :
    responseReader resp =
      if resp.contentEncoding = "deflate" then
        .ok (.flate (drained resp.body), { resp with body := drained resp.body })
      else if resp.contentEncoding = "gzip" then
        match gzipNewReader (drained resp.body) with
        | .error e => .error e
        | .ok rd => .ok (rd, { resp with body := drained resp.body })
      else
        .ok (.plain (drained resp.body), { resp with body := drained resp.body }) := by
  unfold responseReader
  rw [drainBody_eq]

/-! ## Claim theorems -/

/-- Claim C10: for every configured base URL that itself carries a
non-empty path component and every resource path p, buildRequestURL
produces a URL whose path is exactly p: the base path is overwritten, not
joined, so the base prefix is silently discarded. -/
theorem buildRequestURL_overwrites_base_path (base : URL) (p : String)
    (h : base.path ≠ "") :
    buildRequestURL base p = ⟨base.scheme, base.host, p⟩ := by
  cases base
  rfl

theorem buildRequestURL_overwrites_base_path_witness :
    ("/api/v1" : String) ≠ "" ∧
    buildRequestURL ⟨"https", "example.test", "/api/v1"⟩ "/thing" =
      ⟨"https", "example.test", "/thing"⟩ :=
  ⟨by decide, buildRequestURL_overwrites_base_path ⟨"https", "example.test", "/api/v1"⟩ "/thing" (by decide)⟩

/-- Claim C8: a `do` call whose rate-limiter admission fails (context
cancelled while waiting) returns that error with nil response and nil
decoded value, performs zero network exchanges, and never builds the HTTP
request. -/
theorem clientDo_cancelled_admission {ρ β : Type} (e : String)
    (buildResult : Except String Unit) (conds : List (Outcome ρ → Bool))
    (transport : Nat → Outcome ρ) (retry : Option Backoff) (decode : Bool)
    (decodeFn : Outcome ρ → Option β) :
    clientDo (some e) buildResult conds transport retry decode decodeFn =
      ⟨none, none, some e, 0, false⟩ :=
  rfl

/-- Claim C4: for attempt numbers a1 < a2, bounds 0 < min ≤ max, and any
jitter draws in range (the draw for a1 from [0, min*a1], the draw for a2
nonnegative), the exponential backoff at a1 never exceeds the one at a2,
and no backoff value ever exceeds max. -/
theorem ExponentalBackoff_monotone_bounded (a1 a2 : Nat) (mn mx j1 j2 : Int)
    (h12 : a1 < a2) (hmn : 0 < mn) (_hmnmx : mn ≤ mx) (_hj1l : 0 ≤ j1)
    (hj1 : j1 ≤ mn * a1) (hj2 : 0 ≤ j2) :
    ExponentalBackoff a1 mn mx j1 ≤ ExponentalBackoff a2 mn mx j2 ∧
    (∀ (a : Nat) (j : Int), ExponentalBackoff a mn mx j ≤ mx) := by
  constructor
  · have h1 : (a1 : Int) ≤ 2 ^ a1 := by
      exact_mod_cast (Nat.lt_two_pow a1).le
    have h2 : (2 : Int) ^ (a1 + 1) ≤ 2 ^ a2 := by
      apply pow_le_pow_right₀ (by norm_num)
      omega
    have h4 : mn * (a1 : Int) ≤ mn * 2 ^ a1 :=
      mul_le_mul_of_nonneg_left h1 hmn.le
    have h5 : (2 : Int) ^ (a1 + 1) * mn ≤ 2 ^ a2 * mn :=
      mul_le_mul_of_nonneg_right h2 hmn.le
    have h3 : (2 : Int) ^ (a1 + 1) * mn = 2 ^ a1 * mn + 2 ^ a1 * mn := by ring
    have hkey : (2 : Int) ^ a1 * mn + j1 ≤ 2 ^ a2 * mn + j2 := by
      nlinarith
    unfold ExponentalBackoff
    dsimp only
    split_ifs <;> linarith
  · intro a j
    unfold ExponentalBackoff
    dsimp only
    split_ifs with hc
    · exact le_refl mx
    · exact le_of_not_lt hc

theorem ExponentalBackoff_monotone_bounded_witness :
    ((1 : Nat) < 2 ∧ (0 : Int) < 3 ∧ (3 : Int) ≤ 100 ∧ (0 : Int) ≤ 2 ∧
      (2 : Int) ≤ 3 * 1 ∧ (0 : Int) ≤ 0) ∧
    ExponentalBackoff 1 3 100 2 ≤ ExponentalBackoff 2 3 100 0 :=
  ⟨by norm_num,
   (ExponentalBackoff_monotone_bounded 1 2 3 100 2 0 (by norm_num) (by norm_num)
     (by norm_num) (by norm_num) (by norm_num) (by norm_num)).1⟩

/-- Claim C2 (code bug): tryReset compares in the wrong direction
(`nextResetAt.Equal(now) || nextResetAt.After(now)`), so an acquire at
wall-clock 101 — past the scheduled activation time 100 — applies no
queued reconfiguration and leaves the queue intact, while an acquire at 99
(strictly before the activation time) applies the queued limit change. -/
theorem tryReset_comparison_inverted :
    tryReset (SetLimitAt ⟨0, [], ⟨1, 1⟩⟩ 100 100 5) 101 = false ∧
    (SetLimitAt ⟨0, [], ⟨1, 1⟩⟩ 100 100 5).Wait 101 =
      SetLimitAt ⟨0, [], ⟨1, 1⟩⟩ 100 100 5 ∧
    ((SetLimitAt ⟨0, [], ⟨1, 1⟩⟩ 100 100 5).Wait 101).nextResetEvents.length = 1 ∧
    ((SetLimitAt ⟨0, [], ⟨1, 1⟩⟩ 100 100 5).Wait 101).nextResetAt = 100 ∧
    tryReset (SetLimitAt ⟨0, [], ⟨1, 1⟩⟩ 100 100 5) 99 = true ∧
    ((SetLimitAt ⟨0, [], ⟨1, 1⟩⟩ 100 100 5).Wait 99).config.limit = 5 ∧
    ((SetLimitAt ⟨0, [], ⟨1, 1⟩⟩ 100 100 5).Wait 99).nextResetEvents.length = 0 :=
  ⟨rfl, rfl, rfl, rfl, rfl, rfl, rfl⟩

/-- Claim C5 counterexample: a response with Content-Encoding zstd — one
of the encodings the claim says is transparently decompressed — is passed
through uninterpreted by responseReader. -/
theorem responseReader_zstd_not_decompressed :
    responseReader ⟨"zstd", .bytes [1, 2, 3]⟩ =
      .ok (.plain (.bytes [1, 2, 3]), ⟨"zstd", .bytes [1, 2, 3]⟩) ∧
    isDecompressing (.plain (.bytes [1, 2, 3])) = false :=
  ⟨rfl, rfl⟩

/-- Claim C5 (amended): the decode stream decompresses exactly for
Content-Encoding gzip and deflate; any other value — zstd, xz, absent, or
arbitrary — yields the body bytes uninterpreted; deflate yields a flate
reader and gzip yields a gzip reader whenever construction succeeds. -/
theorem responseReader_encoding_cases (enc : String) (body : Body)
    (hg : enc ≠ "gzip") (hd : enc ≠ "deflate") :
    responseReader ⟨enc, body⟩ = .ok (.plain (drained body), ⟨enc, drained body⟩) ∧
    (drained body).bytesOf = body.bytesOf ∧
    isDecompressing (.plain (drained body)) = false ∧
    responseReader ⟨"deflate", body⟩ =
      .ok (.flate (drained body), ⟨"deflate", drained body⟩) ∧
    isDecompressing (.flate (drained body)) = true ∧
    (∀ rd resp1, responseReader ⟨"gzip", body⟩ = .ok (rd, resp1) →
      rd = .gzip (drained body) ∧ isDecompressing rd = true) := by
  refine ⟨?_, ?_, rfl, ?_, rfl, ?_⟩
  · rw [responseReader_eq]
    simp [hd, hg]
  · cases body <;> rfl
  · rw [responseReader_eq]
    simp
  · intro rd resp1 h
    rw [responseReader_eq] at h
    simp only [String.reduceEq, if_false, reduceIte] at h
    cases hgz : gzipNewReader (drained body) with
    | error e =>
      rw [hgz] at h
      cases h
    | ok r =>
      rw [hgz] at h
      unfold gzipNewReader at hgz
      split_ifs at hgz
      cases hgz
      simp only [Except.ok.injEq, Prod.mk.injEq] at h
      obtain ⟨h1, h2⟩ := h
      subst h1
      exact ⟨rfl, rfl⟩

theorem responseReader_encoding_cases_witness :
    (("zstd" : String) ≠ "gzip" ∧ ("zstd" : String) ≠ "deflate") ∧
    responseReader ⟨"zstd", .bytes [9]⟩ =
      .ok (.plain (drained (.bytes [9])), ⟨"zstd", drained (.bytes [9])⟩) :=
  ⟨⟨by decide, by decide⟩,
   (responseReader_encoding_cases "zstd" (.bytes [9]) (by decide) (by decide)).1⟩

/-- Claim C6 counterexample: a response with the NoBody sentinel and
Content-Encoding gzip does fail: responseReader attempts to construct a
gzip reader over the zero-byte body, and the eager header read errors. -/
theorem responseReader_noBody_gzip_fails :
    responseReader ⟨"gzip", .noBody⟩ = .error "gzip: EOF" :=
  rfl

/-- Claim C6 (amended): an empty or absent body short-circuits the
buffering — drainBody returns the NoBody sentinel for both readers with no
error, and for any Content-Encoding other than gzip and deflate the call
succeeds with the sentinel passed through; but the Content-Encoding switch
still runs: with gzip a gzip reader construction is attempted over the
zero-byte body and the call fails, and with deflate a flate reader is
constructed over the zero-byte body. -/
theorem drainBody_noBody_shortcircuit (enc : String)
    (hg : enc ≠ "gzip") (hd : enc ≠ "deflate") :
    drainBody .nil = .ok (.noBody, .noBody) ∧
    drainBody .noBody = .ok (.noBody, .noBody) ∧
    responseReader ⟨enc, .noBody⟩ = .ok (.plain .noBody, ⟨enc, .noBody⟩) ∧
    responseReader ⟨enc, .nil⟩ = .ok (.plain .noBody, ⟨enc, .noBody⟩) ∧
    responseReader ⟨"gzip", .noBody⟩ = .error "gzip: EOF" ∧
    responseReader ⟨"deflate", .noBody⟩ = .ok (.flate .noBody, ⟨"deflate", .noBody⟩) := by
  refine ⟨rfl, rfl, ?_, ?_, rfl, rfl⟩
  · unfold responseReader
    simp [hd, hg, drainBody]
  · unfold responseReader
    simp [hd, hg, drainBody]

theorem drainBody_noBody_shortcircuit_witness :
    (("" : String) ≠ "gzip" ∧ ("" : String) ≠ "deflate") ∧
    responseReader ⟨"", .noBody⟩ = .ok (.plain .noBody, ⟨"", .noBody⟩) :=
  ⟨⟨by decide, by decide⟩,
   (drainBody_noBody_shortcircuit "" (by decide) (by decide)).2.2.1⟩

/-- Claim C9 counterexample: after normalization of a response with body
bytes [1, 2, 3], the externally visible body yields [1, 2, 3] on the first
read but the empty sequence on the second: the two reads differ. -/
theorem external_body_not_rereadable :
    responseReader ⟨"", .bytes [1, 2, 3]⟩ =
      .ok (.plain (.bytes [1, 2, 3]), ⟨"", .bytes [1, 2, 3]⟩) ∧
    ((Body.bytes [1, 2, 3]).readAll).1 = [1, 2, 3] ∧
    (((Body.bytes [1, 2, 3]).readAll).2.readAll).1 = [] ∧
    ([] : List Nat) ≠ [1, 2, 3] :=
  ⟨rfl, rfl, rfl, by decide⟩

/-- Claim C9 (amended): whenever responseReader succeeds, the first read
of the externally visible body is byte-identical to the raw bytes the
server sent — independent of the pipeline consuming the separate decode
stream — but the body is single-use: a second read yields the empty
sequence. -/
theorem responseReader_first_read_byte_identical (resp : Response) (rd : Reader)
    (resp1 : Response) (h : responseReader resp = .ok (rd, resp1)) :
    (resp1.body.readAll).1 = resp.body.bytesOf ∧
    ((resp1.body.readAll).2.readAll).1 = [] := by
  have hb : resp1.body = drained resp.body := by
    rw [responseReader_eq] at h
    split_ifs at h
    · cases h
      rfl
    · cases hgz : gzipNewReader (drained resp.body) with
      | error e =>
        rw [hgz] at h
        cases h
      | ok r =>
        rw [hgz] at h
        cases h
        rfl
    · cases h
      rfl
  rw [hb]
  cases hbody : resp.body <;> simp [drained, Body.readAll, Body.bytesOf]

theorem responseReader_first_read_byte_identical_witness :
    responseReader ⟨"", .bytes [5, 6]⟩ =
      .ok (.plain (.bytes [5, 6]), ⟨"", .bytes [5, 6]⟩) ∧
    ((Body.bytes [5, 6]).readAll).1 = (Body.bytes [5, 6]).bytesOf ∧
    (((Body.bytes [5, 6]).readAll).2.readAll).1 = [] :=
  ⟨rfl, responseReader_first_read_byte_identical ⟨"", .bytes [5, 6]⟩
    (.plain (.bytes [5, 6])) ⟨"", .bytes [5, 6]⟩ rfl⟩

/-- Claim C1 counterexample: with maxAttempts = 1 and a condition that
matches every outcome, executeRequest performs 2 network exchanges, not
exactly maxAttempts = 1 as claimed. -/
theorem retry_maxAttempts_one_two_exchanges :
    (executeRequest [fun (_ : Nat) => true] (fun k => k)
      (some ⟨3, 60, 1, 0, fun _ _ _ => 7⟩)).exchanges = 2 ∧ (2 : Nat) ≠ 1 := by
  constructor
  · have h := executeLoop_always [fun (_ : Nat) => true] (fun k => k)
      (fun _ => by simp [matchedAnyCond]) 1 ⟨3, 60, 1, 0, fun _ _ _ => 7⟩ 0
      (fun _ _ _ => by norm_num [stopBackoff]) (by decide) (by decide)
    simpa [executeRequest] using h.2.2.1
  · decide

/-- Claim C1 (amended): for maxAttempts = N ≥ 1, counter starting at 0, an
always-matching trigger set, and a retry function that never returns the
stop sentinel, one executeRequest call performs exactly N + 1 network
exchanges, returns the outcome of the last exchange as final, terminates
through the Stop branch, and leaves the attempt counter at 0. -/
theorem executeRequest_always_match {α : Type} (conds : List (α → Bool))
    (transport : Nat → α) (hc : ∀ k, matchedAnyCond conds (transport k) = true)
    (N : Int) (hN : 1 ≤ N) (mn mx : Int) (f : Int → Int → Int → Int)
    (hf : ∀ n a b, f n a b ≠ stopBackoff) :
    (executeRequest conds transport (some ⟨mn, mx, N, 0, f⟩)).exchanges = N.toNat + 1 ∧
    (executeRequest conds transport (some ⟨mn, mx, N, 0, f⟩)).out = transport N.toNat ∧
    (executeRequest conds transport (some ⟨mn, mx, N, 0, f⟩)).retry =
      some ⟨mn, mx, N, 0, f⟩ ∧
    (executeRequest conds transport (some ⟨mn, mx, N, 0, f⟩)).stopped = true := by
  have h := executeLoop_always conds transport hc N.toNat ⟨mn, mx, N, 0, f⟩ 0
    hf (by simp; omega) (by simp)
  refine ⟨?_, ?_, ?_, ?_⟩
  · show (executeLoop conds transport ⟨mn, mx, N, 0, f⟩ 0).exchanges = N.toNat + 1
    rw [h.2.2.1]
    omega
  · show (executeLoop conds transport ⟨mn, mx, N, 0, f⟩ 0).out = transport N.toNat
    rw [h.1]
    norm_num
  · show some (executeLoop conds transport ⟨mn, mx, N, 0, f⟩ 0).backoff =
      some ⟨mn, mx, N, 0, f⟩
    rw [h.2.1]
  · exact h.2.2.2

theorem executeRequest_always_match_witness :
    ((∀ k, matchedAnyCond [fun (_ : Nat) => true] ((fun j => j) k) = true) ∧
      (1 : Int) ≤ 2 ∧
      (∀ (n a b : Int), (fun (_ _ _ : Int) => (7 : Int)) n a b ≠ stopBackoff)) ∧
    (executeRequest [fun (_ : Nat) => true] (fun j => j)
      (some ⟨3, 60, 2, 0, fun _ _ _ => 7⟩)).exchanges = (2 : Int).toNat + 1 :=
  ⟨⟨fun _ => by simp [matchedAnyCond], by norm_num,
    fun _ _ _ => by norm_num [stopBackoff]⟩,
   (executeRequest_always_match [fun (_ : Nat) => true] (fun j => j)
     (fun _ => by simp [matchedAnyCond]) 2 (by norm_num) 3 60 (fun _ _ _ => 7)
     (fun _ _ _ => by norm_num [stopBackoff])).1⟩

/-- Claim C3 counterexample: a run whose first outcome triggers a retry
and whose second outcome matches no condition terminates by the
non-matching case with the attempt counter left at 1, not reset to 0. -/
theorem nonmatch_termination_keeps_counter :
    (executeLoop [fun (o : Bool) => o] (fun k => k == 0)
      ⟨1, 1, 5, 0, fun _ _ _ => 1⟩ 0).stopped = false ∧
    (executeLoop [fun (o : Bool) => o] (fun k => k == 0)
      ⟨1, 1, 5, 0, fun _ _ _ => 1⟩ 0).backoff.attempts = 1 ∧
    (1 : Int) ≠ 0 := by
  have hnext : (⟨1, 1, 5, 0, fun _ _ _ => 1⟩ : Backoff).Next =
      ((1 : Int), ⟨1, 1, 5, 1, fun _ _ _ => 1⟩) := by
    simp [Backoff.Next]
  have hrec := executeLoop_nonmatch [fun (o : Bool) => o] (fun k => k == 0)
    ⟨1, 1, 5, 1, fun _ _ _ => 1⟩ 1 (by decide)
  have h0 : executeLoop [fun (o : Bool) => o] (fun k => k == 0)
      ⟨1, 1, 5, 0, fun _ _ _ => 1⟩ 0 =
      ⟨false, ⟨1, 1, 5, 1, fun _ _ _ => 1⟩, 2, [0, 1], false⟩ := by
    unfold executeLoop
    rw [hnext]
    simp only [matchedAnyCond, List.any_cons, List.any_nil]
    rw [dif_neg (by decide : ¬(1 : Int) = stopBackoff)]
    rw [hrec]
    simp
  rw [h0]
  exact ⟨rfl, rfl, by decide⟩

/-- Claim C3 (amended): within one run of the retry loop, the attempt
counter values observed at the entry of each iteration are monotonically
non-decreasing, and when the loop terminates because max attempts is
exhausted (the backoff returned Stop) the counter is reset to 0; a
termination by a non-matching outcome leaves the counter unreset. -/
theorem executeLoop_monotone_and_stop_reset {α : Type} (conds : List (α → Bool))
    (transport : Nat → α) (b : Backoff) (k : Nat) :
    List.Chain' (· ≤ ·) (executeLoop conds transport b k).trace ∧
    ((executeLoop conds transport b k).stopped = true →
      (executeLoop conds transport b k).backoff.attempts = 0) :=
  ⟨executeLoop_trace_chain conds transport _ b k rfl,
   executeLoop_stopped_attempts conds transport _ b k rfl⟩

theorem executeLoop_monotone_and_stop_reset_witness :
    List.Chain' (· ≤ ·) (executeLoop [fun (_ : Nat) => true] (fun _ => 0)
      ⟨1, 1, 0, 0, fun _ _ _ => 1⟩ 0).trace ∧
    (executeLoop [fun (_ : Nat) => true] (fun _ => 0)
      ⟨1, 1, 0, 0, fun _ _ _ => 1⟩ 0).backoff.attempts = 0 := by
  have hstop := (executeLoop_always [fun (_ : Nat) => true] (fun _ => 0)
    (fun _ => by simp [matchedAnyCond]) 0 ⟨1, 1, 0, 0, fun _ _ _ => 1⟩ 0
    (fun _ _ _ => by norm_num [stopBackoff]) (by decide) (by decide)).2.2.2
  have h := executeLoop_monotone_and_stop_reset [fun (_ : Nat) => true] (fun _ => 0)
    ⟨1, 1, 0, 0, fun _ _ _ => 1⟩ 0
  exact ⟨h.1, h.2 hstop⟩

/-- Claim C7: with no retry policy configured, executeRequest performs
exactly one network exchange and returns its outcome; with a retry
policy, any iteration whose outcome matches no configured condition
returns that outcome immediately with no further exchange and the backoff
untouched — in particular a first non-matching outcome yields a single
exchange, so retries happen only on a matching trigger. -/
theorem executeRequest_single_and_nonmatch {α : Type} (conds : List (α → Bool))
    (transport : Nat → α) :
    executeRequest conds transport none = ⟨transport 0, none, 1, [], false⟩ ∧
    (∀ (b : Backoff) (k : Nat), matchedAnyCond conds (transport k) = false →
      executeLoop conds transport b k = ⟨transport k, b, k + 1, [b.attempts], false⟩) ∧
    (∀ (b : Backoff), matchedAnyCond conds (transport 0) = false →
      executeRequest conds transport (some b) =
        ⟨transport 0, some b, 1, [b.attempts], false⟩) := by
  refine ⟨rfl, ?_, ?_⟩
  · intro b k hm
    exact executeLoop_nonmatch conds transport b k hm
  · intro b hm
    simp [executeRequest, executeLoop_nonmatch conds transport b 0 hm]

theorem executeRequest_single_and_nonmatch_witness :
    (matchedAnyCond [fun (_ : Nat) => false] ((fun j => j) 0) = false) ∧
    executeRequest [fun (_ : Nat) => false] (fun j => j) none =
      ⟨0, none, 1, [], false⟩ ∧
    executeRequest [fun (_ : Nat) => false] (fun j => j)
      (some ⟨0, 0, 3, 0, fun _ _ _ => 0⟩) =
      ⟨0, some ⟨0, 0, 3, 0, fun _ _ _ => 0⟩, 1, [0], false⟩ :=
  ⟨by decide,
   (executeRequest_single_and_nonmatch [fun (_ : Nat) => false] (fun j => j)).1,
   (executeRequest_single_and_nonmatch [fun (_ : Nat) => false] (fun j => j)).2.2
     ⟨0, 0, 3, 0, fun _ _ _ => 0⟩ (by decide)⟩

end Clientx
